import Mathlib

/-!
# Verification of the `fileserver` connection-handling core

A shallow embedding of the Rust file server in `src/server/server.rs`,
`src/server/types.rs` and `src/reader/mod.rs`, together with theorems
settling the specification claims about it.

Conventions of the embedding:
* bytes are `Nat` values `< 256`; byte buffers are `List Nat`;
* Rust `i64`/`i32` counters are Lean `Int`; the Rust cast `as u8` on a
  non-negative value is `% 256` (`Int.emod`, whose result lies in `[0, 256)`);
* a `HashMap` touched only through `get_mut`/`insert`/`iter` is an
  association list (`List (key × value)`), with `insert` replacing an
  existing binding in place;
* fallible I/O is made explicit: a read of the command byte is an
  `Option Nat` (`none` = the `stream.read` call returned `Err`), and the
  success of the i-th client write is an oracle `Nat → Bool`;
* a Rust `panic!` is a distinguished constructor of the result type, so
  fatal stops are distinguished from recoverable error reports.
-/

namespace FileServer

/-- The `CommandType` enum from `src/server/types.rs`. -/
inductive CommandType where
  | Upload
  | Download
  | Statistics
  deriving DecidableEq, Repr

/-- Result of `determine_handler` (`src/server/server.rs` lines 177-222):
either a handler for a recognized, registered command (`Ok`), a recoverable
`FailedToParseCommand` error (`Err`), or a Rust `panic!` with its message. -/
inductive DispatchResult where
  | ok (c : CommandType)
  | failedToParseCommand (msg : String)
  | panicked (msg : String)
  deriving DecidableEq, Repr

/-- The `Display` text of `FileServerError::FailedToParseCommand(reason)`
(`src/server/server.rs` lines 57-59). -/
def commandErrText (reason : String) : String :=
  "Could not parse command in request: " ++ reason

/-- The `Display` text of `FileServerError::FailedToParseRequest(reason)`
(`src/server/server.rs` lines 53-55). -/
def requestErrText (reason : String) : String :=
  "Could not parse filename in request: " ++ reason

/-- The `determine_handler` method (`src/server/server.rs` lines 191-221).
`registered c` says whether a handler is registered for command `c`
(the `self.handlers` map); `firstByte` is the result of reading one byte
from the stream, `Except.error e` when the read itself returned `Err` with
display text `e` (the code wraps that text in `FailedToParseCommand`).
Byte `1` maps to `Download`, `3` to `Statistics`, `2` panics with
"upload not implemented", and every other byte hits the wildcard arm
`_ => panic!("not implemented")`. A recognized command with no registered
handler yields `FailedToParseCommand "unsupported command type"`. -/
def determine_handler (registered : CommandType → Bool) (firstByte : Except String Nat) :
    DispatchResult :=
  match firstByte with
  | .error e => .failedToParseCommand e
  | .ok b =>
    if b = 1 then
      if registered .Download then .ok .Download
      else .failedToParseCommand "unsupported command type"
    else if b = 2 then
      .panicked "upload not implemented"
    else if b = 3 then
      if registered .Statistics then .ok .Statistics
      else .failedToParseCommand "unsupported command type"
    else
      .panicked "not implemented"

/-- Observable outcome of one iteration of the accept loop
(`handle_incomming_connections`, `src/server/server.rs` lines 312-358)
for a given dispatch result: what (if anything) is written back to the
client by the accept loop itself, whether the admission slot taken by
`free_thread_barrier` is released on the accept-loop error path
(lines 351-356), and whether the loop reaches its next iteration. -/
structure LoopOutcome where
  written : Option String
  slotReleasedByLoop : Bool
  continues : Bool
  deriving DecidableEq, Repr

/-- One iteration of the accept loop, from the dispatch on. On
`Err(error)` the loop calls `report_error_to_client` with the error's
`Display` text and increments the pool counter (releasing the slot), then
continues. On `Ok` it spawns a worker (Download) or registers the stream
(Statistics) and continues. A `panic!` inside `determine_handler` unwinds
the accept-loop thread: nothing is written, the slot is not released, and
no further connection is accepted. -/
def accept_step (registered : CommandType → Bool) (firstByte : Except String Nat) :
    LoopOutcome :=
  match determine_handler registered firstByte with
  | .ok _ => { written := none, slotReleasedByLoop := false, continues := true }
  | .failedToParseCommand reason =>
      { written := some (commandErrText reason), slotReleasedByLoop := true,
        continues := true }
  | .panicked _ => { written := none, slotReleasedByLoop := false, continues := false }

/-! ## Download handler: request parsing (`src/server/server.rs` lines 105-130)

The handler buffers bytes up to and including `|` (`read_until`), converts
them to `&str` with `std::str::from_utf8(&buffer).unwrap()` — a `panic!`
when the buffer is not valid UTF-8 — and matches the process-wide regex
`filename=([^|]+)\|` (`FILE_MATCHER`, lines 34-37). -/

/-- Is `b` a UTF-8 continuation byte (`0x80..=0xBF`)? -/
def isUtf8Cont (b : Nat) : Bool :=
  0x80 ≤ b && b ≤ 0xBF

/-- UTF-8 validity of a byte sequence, as enforced by Rust's
`std::str::from_utf8` (RFC 3629: no overlongs, no surrogates, max
U+10FFFF). -/
def validUtf8 : List Nat → Bool
  | [] => true
  | b :: rest =>
    if b ≤ 0x7F then validUtf8 rest
    else if 0xC2 ≤ b && b ≤ 0xDF then
      match rest with
      | c1 :: rest2 => isUtf8Cont c1 && validUtf8 rest2
      | [] => false
    else if b = 0xE0 then
      match rest with
      | c1 :: c2 :: rest2 =>
          (0xA0 ≤ c1 && c1 ≤ 0xBF) && isUtf8Cont c2 && validUtf8 rest2
      | _ => false
    else if (0xE1 ≤ b && b ≤ 0xEC) || (0xEE ≤ b && b ≤ 0xEF) then
      match rest with
      | c1 :: c2 :: rest2 => isUtf8Cont c1 && isUtf8Cont c2 && validUtf8 rest2
      | _ => false
    else if b = 0xED then
      match rest with
      | c1 :: c2 :: rest2 =>
          (0x80 ≤ c1 && c1 ≤ 0x9F) && isUtf8Cont c2 && validUtf8 rest2
      | _ => false
    else if b = 0xF0 then
      match rest with
      | c1 :: c2 :: c3 :: rest2 =>
          (0x90 ≤ c1 && c1 ≤ 0xBF) && isUtf8Cont c2 && isUtf8Cont c3 && validUtf8 rest2
      | _ => false
    else if 0xF1 ≤ b && b ≤ 0xF3 then
      match rest with
      | c1 :: c2 :: c3 :: rest2 =>
          isUtf8Cont c1 && isUtf8Cont c2 && isUtf8Cont c3 && validUtf8 rest2
      | _ => false
    else if b = 0xF4 then
      match rest with
      | c1 :: c2 :: c3 :: rest2 =>
          (0x80 ≤ c1 && c1 ≤ 0x8F) && isUtf8Cont c2 && isUtf8Cont c3 && validUtf8 rest2
      | _ => false
    else false

/-- The literal bytes of `"filename="`. -/
def filenamePrefix : List Nat :=
  [102, 105, 108, 101, 110, 97, 109, 101, 61]

/-- The byte `'|'`. -/
def pipeByte : Nat := 124

/-- Does the regex `filename=([^|]+)\|` match starting exactly at the head
of `s`? If so, return the capture of group 1: the (greedy, hence maximal)
nonempty run of non-`|` bytes after `filename=`, which must be followed by
a `|`. -/
def matchAt (s : List Nat) : Option (List Nat) :=
  if s.take 9 = filenamePrefix then
    let rest := s.drop 9
    let r := rest.takeWhile (fun b => b ≠ pipeByte)
    if r.isEmpty then none
    else if (rest.drop r.length).head? = some pipeByte then some r
    else none
  else none

/-- Leftmost-match semantics of `Regex::captures`: the capture of group 1
at the earliest start position where the pattern matches, if any. -/
def findCapture : List Nat → Option (List Nat)
  | [] => none
  | b :: t =>
    match matchAt (b :: t) with
    | some r => some r
    | none => findCapture t

/-- Outcome of the request-parsing phase of
`handle_incomming_file_request` (`src/server/server.rs` lines 105-130)
on an already-buffered request body. -/
inductive ParseOutcome where
  | panicked (msg : String)
  | failedToParseRequest
  | parsedName (name : List Nat)
  deriving DecidableEq, Repr

/-- The parsing phase: `std::str::from_utf8(&buffer).unwrap()` panics on
invalid UTF-8; otherwise the regex capture is extracted, and a missing
match (group 1 of a successful match is never absent and never empty,
since `[^|]+` requires at least one character) yields
`FailedToParseRequest("file name not found")`, reported to the client. -/
def parse_file_request (buffer : List Nat) : ParseOutcome :=
  if validUtf8 buffer then
    match findCapture buffer with
    | some r => .parsedName r
    | none => .failedToParseRequest
  else
    .panicked "called Result::unwrap() on an Err value"

/-! ## Download handler: usage tracking and streaming
(`src/server/server.rs` lines 134-167) -/

/-- The fixed chunk size of the streaming loop (`take(1024)`). -/
def chunkSize : Nat := 1024

/-- Observable events of the post-parse part of the download handler. -/
inductive HandlerEvent where
  | reportedError
  | recordedDownload (name : List Nat)
  | wroteChunk (bytes : List Nat)
  | writeFailed
  deriving DecidableEq, Repr

/-- The `metrics_registry` update (`src/server/server.rs` lines 142-147):
an existing entry for `name` is incremented in place (`get_mut`, `*x += 1`),
an absent one is inserted with count `1`. Keys are the filename's bytes
(Rust `String`s are UTF-8 byte sequences); counts are `i64`. -/
def record_download : List (List Nat × Int) → List Nat → List (List Nat × Int)
  | [], name => [(name, 1)]
  | (k, v) :: rest, name =>
    if k = name then (k, v + 1) :: rest
    else (k, v) :: record_download rest name

/-- The streaming loop (`src/server/server.rs` lines 149-167), with file
reads assumed to succeed: read up to 1024 bytes; a zero-length read
returns; otherwise `write_all` the chunk — on a write `Err` the code calls
`report_error_to_client` via `unwrap_or_else` and then *continues the
loop*. `writeOk i` tells whether the i-th chunk write succeeds. -/
def stream_chunks (writeOk : Nat → Bool) (widx : Nat) (file : List Nat) :
    List HandlerEvent :=
  if file.isEmpty then []
  else if writeOk widx then
    .wroteChunk (file.take chunkSize) ::
      stream_chunks writeOk (widx + 1) (file.drop chunkSize)
  else
    .writeFailed :: .reportedError ::
      stream_chunks writeOk (widx + 1) (file.drop chunkSize)
  termination_by file.length
  decreasing_by
    all_goals
      simp only [List.length_drop]
      cases file with
      | nil => simp_all
      | cons a l =>
        simp only [List.length_cons, chunkSize]
        omega

/-- Lines 134-167 after a successful parse: open the file through the
storage backend (`fetch_file_buffer`; `none` = open failed, its error is
reported and the handler returns), then record the download in the
tracker, then stream. Returns the event trace and the updated tracker. -/
def handle_after_parse (name : List Nat) (storage : List Nat → Option (List Nat))
    (writeOk : Nat → Bool) (stats : List (List Nat × Int)) :
    List HandlerEvent × List (List Nat × Int) :=
  match storage name with
  | none => ([.reportedError], stats)
  | some file =>
      (.recordedDownload name :: stream_chunks writeOk 0 file,
        record_download stats name)

/-- The bytes actually delivered to the client: the concatenation of the
successfully written chunks of a trace. -/
def deliveredBytes (events : List HandlerEvent) : List Nat :=
  events.foldr
    (fun e acc =>
      match e with
      | .wroteChunk c => c ++ acc
      | _ => acc)
    []

/-! ## FileUsageTracker aggregate behaviour (claim C7) -/

/-- One download request as the tracker sees it: the parsed filename bytes
and whether the `fetch_file_buffer` open succeeded. Updates are serialized
by the tracker's write lock, so a concurrent execution is some ordering of
the requests. -/
structure DownloadRequest where
  name : List Nat
  openOk : Bool
  deriving DecidableEq, Repr

/-- The tracker contents after a sequence of requests, starting from the
empty map of `FileServer::new`: only requests whose open succeeded touch
the map (lines 134-140 return before line 142 on an open error). -/
def process_requests (reqs : List DownloadRequest) : List (List Nat × Int) :=
  reqs.foldl (fun m r => if r.openOk then record_download m r.name else m) []

/-- The number of requests for `name` whose open succeeded. -/
def successfulOpens (reqs : List DownloadRequest) (name : List Nat) : Nat :=
  (reqs.filter (fun r => r.openOk && r.name = name)).length

/-- Lookup (`HashMap::get`) on the tracker model: the count bound to `name`, if
any. -/
def statsLookup : List (List Nat × Int) → List Nat → Option Int
  | [], _ => none
  | (k, v) :: rest, name => if k = name then some v else statsLookup rest name

/-! ## StatsBroadcaster (`src/server/server.rs` lines 225-279) -/

/-- The bytes of the sentinel name `"no files"`. -/
def noFilesName : List Nat :=
  [110, 111, 32, 102, 105, 108, 101, 115]

/-- The most-downloaded scan of `send_stats` (lines 235-242): starting
from `max_count = 0`, `most_demanded_file = "no files"`, each entry with a
count strictly greater than the current maximum replaces it (ties keep the
earlier entry). Returns `(max_count, most_demanded_file)`. -/
def scan_stats (entries : List (List Nat × Int)) : Int × List Nat :=
  entries.foldl
    (fun acc e => if e.2 > acc.1 then (e.2, e.1) else acc)
    (0, noFilesName)

/-- Rust's `as u8` on a non-negative integer: the low 8 bits. `Int.emod`
by 256 always lies in `[0, 256)`. -/
def asU8 (n : Int) : Nat :=
  (n % 256).toNat

/-- The stats push message (lines 251-267), as the four sequential writes
deliver it: `[(max_connections_allowed - pool_size) as u8]`, then
`[most_demanded_file.len() as u8]` (Rust `String::len` is the byte
length), then `most_demanded_file.as_bytes()` (all of the name's bytes),
then `[max_count as u8]`. -/
def stats_message (active : Int) (name : List Nat) (count : Int) : List Nat :=
  asU8 active :: (name.length % 256) :: (name ++ [asU8 count])

/-- The count byte a subscriber receives for tracker contents `entries`:
`max_count as u8` where `max_count` is the scan result. -/
def statsCountByte (entries : List (List Nat × Int)) : Nat :=
  asU8 (scan_stats entries).1

/-! ## AdmissionGate (`thread_pool`, `free_thread_barrier`,
`src/server/server.rs` lines 281-293, releases at lines 328-329 and
353-354) -/

/-- Gate state: `free` is the `thread_pool` counter; `active` is the
number of admission slots acquired and not yet released (each `*count += 1`
in the code is executed by a worker, or by the accept-loop error path, that
previously passed `free_thread_barrier` in the same connection's
lifetime, so a release always has a matching earlier acquire). -/
structure GateState where
  free : Int
  active : Nat
  deriving DecidableEq, Repr

/-- One gate transition. `acquire` is `free_thread_barrier`: under the
lock, a counter equal to `0` makes it sleep and retry (no state change),
any other value is decremented (`*count -= 1`). `release` is the
`*count += 1` performed under the same lock when a connection finishes. -/
inductive GateStep : GateState → GateState → Prop where
  | acquire (f : Int) (a : Nat) (h : f ≠ 0) : GateStep ⟨f, a⟩ ⟨f - 1, a + 1⟩
  | release (f : Int) (a : Nat) (h : 0 < a) : GateStep ⟨f, a⟩ ⟨f + 1, a - 1⟩

/-- Gate states reachable from the initial state of `FileServer::new`:
`thread_pool = thread_count = max_connections`, nothing acquired. -/
inductive GateReachable (max : Int) : GateState → Prop where
  | init : GateReachable max ⟨max, 0⟩
  | step {s t : GateState} : GateReachable max s → GateStep s t → GateReachable max t

/-! ## Statistics subscription (`src/server/server.rs` lines 333-343) -/

/-- The subscription-relevant server state: `next_id` (initialized to `0`
in `FileServer::new`, line 82) and the `stats_bound_connections` registry,
an id → connection-handle map (handles are opaque `Nat`s here). -/
structure SubscriptionState where
  next_id : Int
  registry : List (Int × Nat)
  deriving DecidableEq, Repr

/-- Insertion as `HashMap::insert` does it: replace the binding of an existing key in place,
append a new key. -/
def insertConn : List (Int × Nat) → Int → Nat → List (Int × Nat)
  | [], id, s => [(id, s)]
  | (k, v) :: rest, id, s =>
    if k = id then (k, s) :: rest
    else (k, v) :: insertConn rest id s

/-- Server state right after construction (`FileServer::new`). -/
def initSubscriptionState : SubscriptionState :=
  { next_id := 0, registry := [] }

/-- The `CommandType::Statistics` arm of the accept loop (lines 333-343):
`self.stats_bound_connections.write().unwrap().insert(self.next_id,
managed_stream)`. `handle_incomming_connections` takes `&self` and no code
path ever mutates `next_id`, so it stays at its initial value. -/
def subscribe (st : SubscriptionState) (conn : Nat) : SubscriptionState :=
  { st with registry := insertConn st.registry st.next_id conn }

/-! ## Theorems -/

/-- C9: for every accepted connection whose first byte is `2` (Upload),
routing panics ("upload not implemented") — a fatal stop, not a
recoverable per-connection error: no error text is written back to the
client, the admission slot is not released, and the accept loop does not
reach another connection. Holds for every handler registry. -/
theorem upload_byte_is_fatal (registered : CommandType → Bool) :
    determine_handler registered (.ok 2) = .panicked "upload not implemented" ∧
    accept_step registered (.ok 2) =
      { written := none, slotReleasedByLoop := false, continues := false } :=
  ⟨rfl, rfl⟩

/-- C1 counterexample: a first byte of `0` — not a recognized command
byte — does *not* yield a recoverable `FailedToParseCommand` written back
to the client with the slot released and the loop continuing; it hits the
wildcard `panic!("not implemented")`: nothing is written, the slot stays
taken, and the accept loop stops. -/
theorem unrecognized_byte_not_recoverable :
    determine_handler (fun _ => true) (.ok 0) = .panicked "not implemented" ∧
    accept_step (fun _ => true) (.ok 0) =
      { written := none, slotReleasedByLoop := false, continues := false } :=
  ⟨rfl, rfl⟩

/-- C1 amended: only a *failed read* of the command byte yields the
recoverable `FailedToParseCommand`, whose display text is written back to
the client, with the admission slot released and the accept loop
continuing; every first byte outside {1, 2, 3} instead causes a fatal
panic (nothing written, slot kept, loop stopped), exactly like Upload. -/
theorem read_failure_recoverable_unknown_byte_fatal
    (registered : CommandType → Bool) (e : String) (b : Nat)
    (h1 : b ≠ 1) (h2 : b ≠ 2) (h3 : b ≠ 3) :
    accept_step registered (.error e) =
      { written := some (commandErrText e), slotReleasedByLoop := true,
        continues := true } ∧
    accept_step registered (.ok b) =
      { written := none, slotReleasedByLoop := false, continues := false } := by
  refine ⟨rfl, ?_⟩
  simp [accept_step, determine_handler, h1, h2, h3]

/-- Witness for the C1 amended theorem at byte `7` and read-error text
`"connection reset"`. -/
theorem read_failure_recoverable_unknown_byte_fatal_witness :
    accept_step (fun _ => true) (.error "connection reset") =
      { written := some (commandErrText "connection reset"),
        slotReleasedByLoop := true, continues := true } ∧
    accept_step (fun _ => true) (.ok 7) =
      { written := none, slotReleasedByLoop := false, continues := false } :=
  read_failure_recoverable_unknown_byte_fatal (fun _ => true) "connection reset" 7
    (by decide) (by decide) (by decide)

/-- C2 (code bug, evaluated): `next_id` is never incremented, so after two
Statistics subscriptions (handles `7` then `8`) both are stored under
connection id `0` and the registry holds only the second subscriber — the
first has been overwritten, contradicting the monotonically-increasing-ids
claim the code's `next_id` field was clearly meant to implement. -/
theorem second_subscriber_overwrites_first :
    (subscribe (subscribe initSubscriptionState 7) 8).registry = [(0, 8)] ∧
    (subscribe (subscribe initSubscriptionState 7) 8).next_id = 0 :=
  ⟨rfl, rfl⟩

/-- C10: the `nameLen` byte of a pushed stats message is the name's byte
length reduced modulo 256, while the name field carries all of the name's
bytes; the declared length agrees with the number of name bytes written
if and only if the name is at most 255 bytes long. -/
theorem stats_message_name_framing (active : Int) (name : List Nat) (count : Int) :
    (stats_message active name count).get? 1 = some (name.length % 256) ∧
    ((stats_message active name count).drop 2).take name.length = name ∧
    (name.length % 256 = name.length ↔ name.length ≤ 255) := by
  refine ⟨rfl, ?_, ?_⟩
  · show (name ++ [asU8 count]).take name.length = name
    exact List.take_left name [asU8 count]
  · omega

/-- The scan never exceeds an upper bound of all counts that also bounds
the accumulator. -/
theorem scan_fold_le (K : Int) :
    ∀ (l : List (List Nat × Int)) (acc : Int × List Nat), acc.1 ≤ K →
      (∀ e ∈ l, e.2 ≤ K) →
      (l.foldl (fun acc e => if e.2 > acc.1 then (e.2, e.1) else acc) acc).1 ≤ K := by
  intro l
  induction l with
  | nil => intro acc hacc _; exact hacc
  | cons e rest ih =>
    intro acc hacc hall
    simp only [List.foldl_cons]
    by_cases hgt : e.2 > acc.1
    · simp only [if_pos hgt]
      exact ih (e.2, e.1) (hall e (by simp)) (fun x hx => hall x (by simp [hx]))
    · simp only [if_neg hgt]
      exact ih acc hacc (fun x hx => hall x (by simp [hx]))

/-- If some entry carries the maximal count `K` (or the accumulator
already does), the scan returns exactly `K`. -/
theorem scan_fold_reaches (K : Int) (f : List Nat) :
    ∀ (l : List (List Nat × Int)) (acc : Int × List Nat), acc.1 ≤ K →
      (∀ e ∈ l, e.2 ≤ K) → ((f, K) ∈ l ∨ acc.1 = K) →
      (l.foldl (fun acc e => if e.2 > acc.1 then (e.2, e.1) else acc) acc).1 = K := by
  intro l
  induction l with
  | nil =>
    intro acc _ _ hK
    rcases hK with hmem | heq
    · exact absurd hmem (List.not_mem_nil _)
    · exact heq
  | cons e rest ih =>
    intro acc hacc hall hK
    simp only [List.foldl_cons]
    have he : e.2 ≤ K := hall e (by simp)
    have hrest : ∀ x ∈ rest, x.2 ≤ K := fun x hx => hall x (by simp [hx])
    by_cases hgt : e.2 > acc.1
    · simp only [if_pos hgt]
      rcases hK with hmem | heq
      · rcases List.mem_cons.mp hmem with heq' | hmem'
        · exact ih (e.2, e.1) he hrest (Or.inr (by rw [← heq']))
        · exact ih (e.2, e.1) he hrest (Or.inl hmem')
      · omega
    · simp only [if_neg hgt]
      rcases hK with hmem | heq
      · rcases List.mem_cons.mp hmem with heq' | hmem'
        · have : e.2 = K := by rw [← heq']
          exact ih acc hacc hrest (Or.inr (by omega))
        · exact ih acc hacc hrest (Or.inl hmem')
      · exact ih acc hacc hrest (Or.inr heq)

/-- C4 counterexample: after 256 successful downloads of file `"a"` (and
no other file), the tracker holds `[("a", 256)]` and the count byte pushed
to a subscriber is `256 as u8 = 0`, not `min(256, 255) = 255`. -/
theorem count_byte_wraps_at_256 :
    statsCountByte [([97], 256)] = 0 ∧ statsCountByte [([97], 256)] ≠ min 256 255 := by
  constructor <;> decide

/-- C4 amended: after K ≥ 1 successful downloads of one filename, with no
other file strictly (or even weakly) ahead, the `mostDownloadedFileCount`
byte pushed to a subscriber is `K mod 256` — the Rust `as u8` truncation —
which agrees with `min(K, 255)` only while `K ≤ 255` (at `K = 256` it
wraps to `0`). -/
theorem count_byte_is_mod_256 (entries : List (List Nat × Int)) (f : List Nat)
    (K : Int) (hK : 1 ≤ K) (hmem : (f, K) ∈ entries)
    (hmax : ∀ e ∈ entries, e.2 ≤ K) :
    statsCountByte entries = (K % 256).toNat := by
  have hscan : (scan_stats entries).1 = K :=
    scan_fold_reaches K f entries (0, noFilesName) (by omega) hmax (Or.inl hmem)
  unfold statsCountByte asU8
  rw [hscan]

/-- Witness for the C4 amended theorem: three downloads of `"a"` push the
count byte `3`. -/
theorem count_byte_is_mod_256_witness :
    statsCountByte [([97], 3)] = ((3 : Int) % 256).toNat :=
  count_byte_is_mod_256 [([97], 3)] [97] 3 (by decide) (by decide) (by decide)

/-- Strengthened gate invariant: the free count plus the outstanding
acquisitions is always exactly the capacity, and the free count never goes
negative. -/
theorem gate_inductive_invariant (max : Int) (s : GateState) (hmax : 0 ≤ max)
    (h : GateReachable max s) :
    s.free + (s.active : Int) = max ∧ 0 ≤ s.free := by
  induction h with
  | init => simpa using hmax
  | step _ hstep ih =>
    cases hstep with
    | acquire f a hne =>
      obtain ⟨hsum, hnn⟩ := ih
      simp only [GateState.mk.injEq] at *
      push_cast
      omega
    | release f a hpos =>
      obtain ⟨hsum, hnn⟩ := ih
      simp only [GateState.mk.injEq] at *
      push_cast [Nat.cast_sub hpos]
      omega

/-- C6: at every quiescent point of every execution (every state reachable
by acquire/release steps from the initial state), the `thread_pool`
counter satisfies `0 ≤ freeSlots ≤ maxConnections`, so the
`activeConnections` value `maxConnections − freeSlots` a subscriber is
shown is never negative and never exceeds the configured maximum. -/
theorem gate_bounds (max : Int) (s : GateState) (hmax : 0 ≤ max)
    (h : GateReachable max s) :
    0 ≤ s.free ∧ s.free ≤ max ∧ 0 ≤ max - s.free ∧ max - s.free ≤ max := by
  obtain ⟨hsum, hnn⟩ := gate_inductive_invariant max s hmax h
  have hcast : (0 : Int) ≤ (s.active : Int) := Int.natCast_nonneg _
  omega

/-- Witness for C6 at capacity 1, in the state reached by one acquire. -/
theorem gate_bounds_witness :
    0 ≤ (GateState.mk 0 1).free ∧ (GateState.mk 0 1).free ≤ 1 ∧
    0 ≤ 1 - (GateState.mk 0 1).free ∧ 1 - (GateState.mk 0 1).free ≤ 1 :=
  gate_bounds 1 ⟨0, 1⟩ (by decide)
    (GateReachable.step GateReachable.init
      (by have h := GateStep.acquire (f := 1) (a := 0) (by decide); simpa using h))

/-- With every client write succeeding, the streaming loop delivers the
file's bytes exactly: the concatenation of the 1024-byte chunks it writes
is the file. -/
theorem stream_delivers_aux :
    ∀ (n : Nat) (file : List Nat), file.length ≤ n → ∀ widx : Nat,
      deliveredBytes (stream_chunks (fun _ => true) widx file) = file := by
  intro n
  induction n with
  | zero =>
    intro file h widx
    have hfile : file = [] := List.eq_nil_of_length_eq_zero (Nat.le_zero.mp h)
    subst hfile
    rw [stream_chunks]
    simp [deliveredBytes]
  | succ n ih =>
    intro file h widx
    rw [stream_chunks]
    by_cases hf : file.isEmpty
    · simp [List.isEmpty_iff.mp hf, deliveredBytes]
    · simp only [hf, Bool.false_eq_true, if_false, if_true]
      have hd : (file.drop chunkSize).length ≤ n := by
        rw [List.length_drop]
        have hpos : 0 < file.length := by
          cases file
          · simp at hf
          · simp
        have : 0 < chunkSize := by decide
        omega
      have hcons :
          deliveredBytes
              (.wroteChunk (file.take chunkSize) ::
                stream_chunks (fun _ => true) (widx + 1) (file.drop chunkSize)) =
            file.take chunkSize ++
              deliveredBytes (stream_chunks (fun _ => true) (widx + 1) (file.drop chunkSize)) :=
        rfl
      rw [hcons, ih (file.drop chunkSize) hd (widx + 1)]
      exact List.take_append_drop chunkSize file

/-- C5: for every file content under the root directory (any byte
sequence, any length, including lengths not a multiple of 1024), a
download with a successful open and no client-write failures delivers to
the client exactly the file's bytes: the concatenation of the chunked
writes equals the file (round-trip). -/
theorem download_roundtrip (name : List Nat) (storage : List Nat → Option (List Nat))
    (file : List Nat) (stats : List (List Nat × Int))
    (hopen : storage name = some file) :
    deliveredBytes (handle_after_parse name storage (fun _ => true) stats).1 = file := by
  unfold handle_after_parse
  rw [hopen]
  have hcons :
      deliveredBytes
          (.recordedDownload name :: stream_chunks (fun _ => true) 0 file) =
        deliveredBytes (stream_chunks (fun _ => true) 0 file) := rfl
  rw [hcons]
  exact stream_delivers_aux file.length file (Nat.le_refl _) 0

/-- Witness for C5 on a 1500-byte file (not a multiple of 1024). -/
theorem download_roundtrip_witness :
    deliveredBytes
        (handle_after_parse [97] (fun _ => some (List.replicate 1500 9))
          (fun _ => true) []).1 =
      List.replicate 1500 9 :=
  download_roundtrip [97] (fun _ => some (List.replicate 1500 9))
    (List.replicate 1500 9) [] rfl

/-- C3 (code bug, evaluated): streaming a 2000-byte file whose first
chunk write fails does *not* abort the transfer. The code's
`unwrap_or_else` closure reports the error but cannot return from the
handler, so the loop reads and writes the remaining 976-byte chunk after
the failure, contradicting the documented abort-on-write-error behavior. -/
theorem write_failure_does_not_abort :
    stream_chunks (fun i => decide (i ≠ 0)) 0 (List.replicate 2000 7) =
      [.writeFailed, .reportedError,
        .wroteChunk (List.replicate 976 7)] := by
  rw [stream_chunks]
  norm_num [List.isEmpty_replicate, List.take_replicate, List.drop_replicate, chunkSize]
  rw [stream_chunks]
  norm_num [List.isEmpty_replicate, List.take_replicate, List.drop_replicate, chunkSize]
  rw [stream_chunks]
  norm_num

/-- Recording `name` makes its count one more than before (an absent
entry counts as `0` and is inserted with count `1`). -/
theorem statsLookup_record_self (m : List (List Nat × Int)) (n : List Nat) :
    statsLookup (record_download m n) n = some ((statsLookup m n).getD 0 + 1) := by
  induction m with
  | nil => simp [record_download, statsLookup]
  | cons e rest ih =>
    obtain ⟨k, v⟩ := e
    by_cases hk : k = n
    · subst hk
      simp [record_download, statsLookup]
    · simp [record_download, statsLookup, hk, ih]

/-- Recording `name` leaves every other filename's count unchanged. -/
theorem statsLookup_record_other (m : List (List Nat × Int)) (n n' : List Nat)
    (h : n' ≠ n) :
    statsLookup (record_download m n) n' = statsLookup m n' := by
  induction m with
  | nil =>
    simp [record_download, statsLookup, Ne.symm h]
  | cons e rest ih =>
    obtain ⟨k, v⟩ := e
    by_cases hk : k = n
    · subst hk
      simp [record_download, statsLookup, Ne.symm h, ih]
    · simp [record_download, statsLookup, hk, ih]

/-- Closed form of the tracker after folding a request sequence over an
arbitrary starting map. -/
theorem process_fold_lookup (name : List Nat) :
    ∀ (reqs : List DownloadRequest) (m : List (List Nat × Int)),
      statsLookup
          (reqs.foldl (fun m r => if r.openOk then record_download m r.name else m) m)
          name =
        if successfulOpens reqs name = 0 then statsLookup m name
        else some ((statsLookup m name).getD 0 + (successfulOpens reqs name : Int)) := by
  intro reqs
  induction reqs with
  | nil => intro m; simp [successfulOpens]
  | cons r rest ih =>
    intro m
    simp only [List.foldl_cons]
    by_cases ho : r.openOk = true
    · by_cases hn : r.name = name
      · subst hn
        rw [if_pos ho, ih (record_download m r.name)]
        have hs : successfulOpens (r :: rest) r.name = successfulOpens rest r.name + 1 := by
          simp [successfulOpens, List.filter_cons, ho]
        rw [hs, statsLookup_record_self]
        by_cases h0 : successfulOpens rest r.name = 0
        · simp [h0]
        · simp only [h0, if_false, Nat.add_eq_zero, one_ne_zero, and_false,
            Option.getD_some, Option.some.injEq]
          push_cast
          ring
      · rw [if_pos ho, ih (record_download m r.name),
          statsLookup_record_other m r.name name (fun hh => hn hh.symm)]
        have hs : successfulOpens (r :: rest) name = successfulOpens rest name := by
          simp [successfulOpens, List.filter_cons, ho, hn]
        rw [hs]
    · have ho' : r.openOk = false := by
        cases h : r.openOk
        · rfl
        · exact absurd h ho
      rw [if_neg ho, ih m]
      have hs : successfulOpens (r :: rest) name = successfulOpens rest name := by
        simp [successfulOpens, List.filter_cons, ho']
      rw [hs]

/-- The streaming loop emits no `recordedDownload` event. -/
theorem recorded_not_in_stream (w : Nat → Bool) (n : List Nat) :
    ∀ (m : Nat) (file : List Nat), file.length ≤ m → ∀ widx : Nat,
      (stream_chunks w widx file).count (.recordedDownload n) = 0 := by
  intro m
  induction m with
  | zero =>
    intro file h widx
    have hfile : file = [] := List.eq_nil_of_length_eq_zero (Nat.le_zero.mp h)
    subst hfile
    rw [stream_chunks]
    simp
  | succ m ih =>
    intro file h widx
    rw [stream_chunks]
    by_cases hf : file.isEmpty
    · simp [hf]
    · have hd : (file.drop chunkSize).length ≤ m := by
        rw [List.length_drop]
        have hpos : 0 < file.length := by
          cases file
          · simp at hf
          · simp
        have : 0 < chunkSize := by decide
        omega
      by_cases hw : w widx = true
      · simp [hf, hw, List.count_cons, ih (file.drop chunkSize) hd (widx + 1)]
      · simp [hf, hw, List.count_cons, ih (file.drop chunkSize) hd (widx + 1)]

/-- C7: the tracker entry for a requested filename changes exactly at
file-open success, once per request and before any chunk is streamed; a
failed open changes nothing; starting from the empty tracker, the final
count of each filename equals the number of successful opens of that name
(absent exactly when that number is zero), and is the same for any
reordering (interleaving) of the requests. -/
theorem tracker_exact_counts (storage : List Nat → Option (List Nat))
    (writeOk : Nat → Bool) (stats : List (List Nat × Int)) (name file : List Nat)
    (reqs reqs' : List DownloadRequest) (hperm : reqs.Perm reqs') :
    (storage name = none →
      handle_after_parse name storage writeOk stats = ([.reportedError], stats)) ∧
    (storage name = some file →
      (handle_after_parse name storage writeOk stats).2 = record_download stats name ∧
      (handle_after_parse name storage writeOk stats).1.head? =
        some (.recordedDownload name) ∧
      (handle_after_parse name storage writeOk stats).1.count
        (.recordedDownload name) = 1) ∧
    statsLookup (process_requests reqs) name =
      (if successfulOpens reqs name = 0 then none
       else some (successfulOpens reqs name : Int)) ∧
    statsLookup (process_requests reqs') name =
      statsLookup (process_requests reqs) name := by
  have hcnt : successfulOpens reqs name = successfulOpens reqs' name :=
    (hperm.filter _).length_eq
  have hbase : ∀ rs : List DownloadRequest,
      statsLookup (process_requests rs) name =
        (if successfulOpens rs name = 0 then none
         else some (successfulOpens rs name : Int)) := by
    intro rs
    unfold process_requests
    rw [process_fold_lookup name rs []]
    by_cases h0 : successfulOpens rs name = 0
    · simp [h0, statsLookup]
    · simp [h0, statsLookup]
  refine ⟨?_, ?_, hbase reqs, ?_⟩
  · intro hnone
    unfold handle_after_parse
    rw [hnone]
  · intro hsome
    unfold handle_after_parse
    rw [hsome]
    refine ⟨rfl, rfl, ?_⟩
    simp [List.count_cons,
      recorded_not_in_stream writeOk name file.length file (Nat.le_refl _) 0]
  · rw [hbase reqs, hbase reqs', hcnt]

/-- Witness for C7: one successful and one failed request, in both
orders. -/
theorem tracker_exact_counts_witness :
    ((fun n => if n = [97] then some [1, 2] else none) [97] = none →
      handle_after_parse [97] (fun n => if n = [97] then some [1, 2] else none)
        (fun _ => true) [] = ([.reportedError], [])) ∧
    ((fun n => if n = [97] then some [1, 2] else none) [97] = some [1, 2] →
      (handle_after_parse [97] (fun n => if n = [97] then some [1, 2] else none)
        (fun _ => true) []).2 = record_download [] [97] ∧
      (handle_after_parse [97] (fun n => if n = [97] then some [1, 2] else none)
        (fun _ => true) []).1.head? = some (.recordedDownload [97]) ∧
      (handle_after_parse [97] (fun n => if n = [97] then some [1, 2] else none)
        (fun _ => true) []).1.count (.recordedDownload [97]) = 1) ∧
    statsLookup (process_requests [⟨[97], true⟩, ⟨[98], false⟩]) [97] =
      (if successfulOpens [⟨[97], true⟩, ⟨[98], false⟩] [97] = 0 then none
       else some (successfulOpens [⟨[97], true⟩, ⟨[98], false⟩] [97] : Int)) ∧
    statsLookup (process_requests [⟨[98], false⟩, ⟨[97], true⟩]) [97] =
      statsLookup (process_requests [⟨[97], true⟩, ⟨[98], false⟩]) [97] :=
  tracker_exact_counts (fun n => if n = [97] then some [1, 2] else none)
    (fun _ => true) [] [97] [1, 2]
    [⟨[97], true⟩, ⟨[98], false⟩] [⟨[98], false⟩, ⟨[97], true⟩]
    (List.Perm.swap _ _ _)

/-- A capture returned by `matchAt` is nonempty and contains no `|`. -/
theorem matchAt_capture_props (s r : List Nat) (h : matchAt s = some r) :
    r ≠ [] ∧ pipeByte ∉ r := by
  unfold matchAt at h
  split at h
  · dsimp only at h
    split at h
    · exact absurd h (by simp)
    · split at h
      · rename_i hr _
        obtain rfl : (s.drop 9).takeWhile (fun b => b ≠ pipeByte) = r :=
          Option.some.inj h
        constructor
        · intro hnil
          rw [hnil] at hr
          exact hr rfl
        · intro hmem
          have hpb := List.mem_takeWhile_imp hmem
          simp at hpb
      · exact absurd h (by simp)
  · exact absurd h (by simp)

/-- A capture returned by `findCapture` is nonempty and contains no `|`. -/
theorem findCapture_props :
    ∀ (s r : List Nat), findCapture s = some r → r ≠ [] ∧ pipeByte ∉ r := by
  intro s
  induction s with
  | nil => intro r h; simp [findCapture] at h
  | cons b t ih =>
    intro r h
    rw [findCapture] at h
    cases hm : matchAt (b :: t) with
    | some r' =>
      rw [hm] at h
      exact Option.some.inj h ▸ matchAt_capture_props (b :: t) r' hm
    | none =>
      rw [hm] at h
      exact ih r h

/-- C8 counterexample: the buffered body `[0xFF, '|']` — read up to and
including the terminator — is not valid UTF-8, so
`std::str::from_utf8(&buffer).unwrap()` panics: the parse phase produces
neither an extracted name nor a `FailedToParseRequest` report. -/
theorem parse_panics_on_invalid_utf8 :
    ¬ ((∃ name, parse_file_request [255, pipeByte] = .parsedName name) ∨
        parse_file_request [255, pipeByte] = .failedToParseRequest) := by
  have h : parse_file_request [255, pipeByte] =
      .panicked "called Result::unwrap() on an Err value" := rfl
  rintro (⟨name, hn⟩ | hf)
  · rw [h] at hn
    exact ParseOutcome.noConfusion hn
  · rw [h] at hf
    exact ParseOutcome.noConfusion hf

/-- C8 amended: for every buffered request body that is *valid UTF-8*,
the parse phase totally distinguishes exactly two outcomes — a non-empty
extracted `<name>` containing no `|` byte, or a `FailedToParseRequest`
report; a body that is not valid UTF-8 instead panics in
`from_utf8(..).unwrap()`. -/
theorem parse_two_outcomes_on_valid_utf8 (buffer : List Nat)
    (hv : validUtf8 buffer = true) :
    (∃ name, parse_file_request buffer = .parsedName name ∧
      name ≠ [] ∧ pipeByte ∉ name) ∨
    parse_file_request buffer = .failedToParseRequest := by
  cases hc : findCapture buffer with
  | none =>
    right
    simp [parse_file_request, hv, hc]
  | some r =>
    left
    refine ⟨r, ?_, (findCapture_props buffer r hc).1, (findCapture_props buffer r hc).2⟩
    simp [parse_file_request, hv, hc]

/-- Witness for the C8 amended theorem on the body `"filename=a|"`. -/
theorem parse_two_outcomes_on_valid_utf8_witness :
    (∃ name,
      parse_file_request [102, 105, 108, 101, 110, 97, 109, 101, 61, 97, 124] =
        .parsedName name ∧ name ≠ [] ∧ pipeByte ∉ name) ∨
    parse_file_request [102, 105, 108, 101, 110, 97, 109, 101, 61, 97, 124] =
      .failedToParseRequest :=
  parse_two_outcomes_on_valid_utf8
    [102, 105, 108, 101, 110, 97, 109, 101, 61, 97, 124] (by decide)

end FileServer
